import Mathlib

-- Verification of the terminal-mirror session relay subsystem:
-- tm-wrapper.js (PTY session owner, ring buffer, IPC endpoint) and
-- mirror-server.js (multi-session relay: discovery, reconnect, auth gate,
-- mailbox, port scan, file endpoint).
-- Bytes are modelled as Nat, JS strings as String or List Char, buffers as
-- List Nat. Filesystem and network effects are modelled as explicit data.

-- ══ Ring buffer (tm-wrapper.js, class RingBuffer) ══

-- Buffer.copy of `src` into `buf` starting at index `start`.  At every call
-- site inside RingBuffer.write the source range fits inside the target, so
-- the overlay never grows the backing store.
def overlay (buf : List Nat) (start : Nat) (src : List Nat) : List Nat :=
  buf.take start ++ src ++ buf.drop (start + src.length)

structure RingBuffer where
  capacity : Nat
  buf : List Nat
  writePos : Nat
  totalWritten : Nat
deriving DecidableEq

-- constructor(capacity): Buffer.alloc is zero-filled.
def RingBuffer.init (capacity : Nat) : RingBuffer :=
  ⟨capacity, List.replicate capacity 0, 0, 0⟩

-- write(data): three cases exactly as in the source:
-- (a) src.length >= capacity: keep only the tail, cursor to 0;
-- (b) fits without wrapping: copy in place, advance cursor;
-- (c) straddles the end: first segment to the tail of the store, the
--     remainder to the head, cursor past the remainder.
def RingBuffer.write (rb : RingBuffer) (src : List Nat) : RingBuffer :=
  if src.length ≥ rb.capacity then
    { rb with
      buf := overlay rb.buf 0 (src.drop (src.length - rb.capacity)),
      writePos := 0,
      totalWritten := rb.totalWritten + src.length }
  else if rb.writePos + src.length ≤ rb.capacity then
    { rb with
      buf := overlay rb.buf rb.writePos src,
      writePos := rb.writePos + src.length,
      totalWritten := rb.totalWritten + src.length }
  else
    let firstSeg := rb.capacity - rb.writePos
    { rb with
      buf := overlay (overlay rb.buf rb.writePos (src.take firstSeg)) 0 (src.drop firstSeg),
      writePos := src.length - firstSeg,
      totalWritten := rb.totalWritten + src.length }

-- getContents(): if totalWritten <= capacity return the store up to the
-- cursor, else the segment from the cursor to the end followed by the
-- segment from the start to the cursor.
def RingBuffer.getContents (rb : RingBuffer) : List Nat :=
  if rb.totalWritten ≤ rb.capacity then
    rb.buf.take rb.writePos
  else
    rb.buf.drop rb.writePos ++ rb.buf.take rb.writePos

-- The last n elements of a list (what the spec calls the trailing
-- min(total_bytes, C) bytes of the write sequence).
def lastN (l : List Nat) (n : Nat) : List Nat := l.drop (l.length - n)

-- ══ Mailbox (mirror-server.js: messageQueue / pollWaiters per session) ══

-- A queued message: text plus timestamp (at), as built by /api/submit.
structure MsgEntry where
  text : String
  sentAt : Nat
deriving DecidableEq

def MAX_MESSAGE_QUEUE : Nat := 100

def POLL_TIMEOUT_MS : Nat := 120000

-- resolveNextPoll(session): while there are waiters and queued messages,
-- pop the earliest waiter and the earliest message and respond.  Returns
-- (remaining waiters, remaining queue, deliveries in order).
def resolveNextPoll : List Nat → List MsgEntry → List Nat × List MsgEntry × List (Nat × MsgEntry)
  | w :: ws, m :: ms =>
      let r := resolveNextPoll ws ms
      (r.1, r.2.1, (w, m) :: r.2.2)
  | ws, ms => (ws, ms, [])

structure Mailbox where
  queue : List MsgEntry
  waiters : List Nat
deriving DecidableEq

-- /api/submit enqueue step: if the queue is at capacity drop the oldest
-- (shift), push the new entry, then resolveNextPoll.  Returns the new
-- mailbox and the deliveries made to waiters.
def Mailbox.submit (mb : Mailbox) (e : MsgEntry) : Mailbox × List (Nat × MsgEntry) :=
  let q1 := if mb.queue.length ≥ MAX_MESSAGE_QUEUE then mb.queue.tail else mb.queue
  let q2 := q1 ++ [e]
  let r := resolveNextPoll mb.waiters q2
  (⟨r.2.1, r.1⟩, r.2.2)

-- /api/poll: if the queue is non-empty pop and return the earliest entry
-- synchronously; otherwise register a waiter (identified by wid).
def Mailbox.poll (mb : Mailbox) (wid : Nat) : Option MsgEntry × Mailbox :=
  match mb.queue with
  | m :: ms => (some m, ⟨ms, mb.waiters⟩)
  | [] => (none, ⟨[], mb.waiters ++ [wid]⟩)

def submitAll (es : List MsgEntry) (mb : Mailbox) : Mailbox :=
  es.foldl (fun m e => (m.submit e).1) mb

-- ══ Auth gate (mirror-server.js: isValidToken and the request gates) ══

-- A JS string as its sequence of Unicode scalar values.

-- String.prototype.length: UTF-16 code units.
def jsLength (s : List Nat) : Nat :=
  (s.map (fun c => if c < 0x10000 then 1 else 2)).sum

-- Buffer.from(s, 'utf-8').length: UTF-8 byte count.
def utf8Length (s : List Nat) : Nat :=
  (s.map (fun c =>
    if c < 0x80 then 1 else if c < 0x800 then 2 else if c < 0x10000 then 3 else 4)).sum

inductive AuthOutcome
  | ok (valid : Bool)
  | thrown
deriving DecidableEq

-- isValidToken(candidate):
--   if (!candidate || candidate.length !== masterToken.length) return false;
--   return crypto.timingSafeEqual(Buffer.from(candidate), Buffer.from(masterToken));
-- timingSafeEqual compares UTF-8 byte buffers and THROWS when the byte
-- lengths differ (the guard above compares UTF-16 string lengths, which is
-- not the same quantity for non-ASCII candidates).  UTF-8 encoding is
-- injective, so equal-length byte buffers are equal iff the scalar
-- sequences are equal.
def isValidToken (masterToken candidate : List Nat) : AuthOutcome :=
  if candidate = [] then .ok false
  else if jsLength candidate ≠ jsLength masterToken then .ok false
  else if utf8Length candidate ≠ utf8Length masterToken then .thrown
  else .ok (candidate = masterToken)

inductive HttpResult
  | unauthorized401
  | handled
  | crashed
deriving DecidableEq

-- The gate on every /api/ route: rejectUnauthorized on a failed check,
-- dispatch past the gate otherwise; a throw escapes the async handler as an
-- unhandled rejection (no response is written).
def apiGate (master cand : List Nat) : HttpResult :=
  match isValidToken master cand with
  | .ok true => .handled
  | .ok false => .unauthorized401
  | .thrown => .crashed

-- The gate in the httpServer 'upgrade' handler, shared by /ws/terminal and
-- /ws/comments: 401 + socket destroy on failure; a throw escapes the event
-- handler as an uncaught exception.
def upgradeGate (master cand : List Nat) : HttpResult :=
  match isValidToken master cand with
  | .ok true => .handled
  | .ok false => .unauthorized401
  | .thrown => .crashed

-- A representative master token: crypto.randomBytes(24).toString('hex')
-- always yields 48 ASCII hex characters.
def masterTokenExample : List Nat :=
  "0123456789abcdef0123456789abcdef0123456789abcdef".toList.map Char.toNat

-- 47 ASCII characters followed by one 2-byte character: 48 UTF-16 units but
-- 49 UTF-8 bytes (reachable via ?token=aaa...%C3%A9).
def badCandidateExample : List Nat :=
  List.replicate 47 97 ++ [233]

-- ══ Session discovery (mirror-server.js: scanForWrappers / discoverAndConnect) ══

-- Directory entries are char lists.  entry.startsWith('tm-') && entry.endsWith('.sock').
def matchesSock (e : List Char) : Bool :=
  decide (e.take 3 = ['t', 'm', '-']) &&
  decide (5 ≤ e.length ∧ e.drop (e.length - 5) = ['.', 's', 'o', 'c', 'k'])

-- entry.slice(3, -5): the characters between the "tm-" and the ".sock".
def sliceMid (e : List Char) : List Char :=
  (e.drop 3).take ((e.drop 3).length - 5)

def digitsToNat (ds : List Char) : Nat :=
  ds.foldl (fun n c => n * 10 + (c.toNat - 48)) 0

-- parseInt(s, 10) restricted to its leading-digit-run core (the names the
-- wrapper creates are pure digit runs; a name with no leading digit parses
-- to NaN and is skipped by the isNaN check).
def jsParseInt (s : List Char) : Option Nat :=
  let ds := s.takeWhile Char.isDigit
  if ds = [] then none else some (digitsToNat ds)

def parsePid (e : List Char) : Option Nat := jsParseInt (sliceMid e)

structure ScanResult where
  found : List (Nat × List Char)
  fsAfter : List (List Char)
deriving DecidableEq

-- scanForWrappers(): walk the tmp directory; for each tm-*.sock entry parse
-- the pid and probe it with signal 0.  A live pid is recorded in `found`;
-- a dead pid's socket file is unlinked (it disappears from the directory).
-- Other entries are left untouched.
def scanForWrappers (alive : Nat → Bool) : List (List Char) → ScanResult
  | [] => ⟨[], []⟩
  | e :: rest =>
      let r := scanForWrappers alive rest
      if matchesSock e then
        match parsePid e with
        | some pid =>
            if alive pid then ⟨(pid, e) :: r.found, e :: r.fsAfter⟩
            else ⟨r.found, r.fsAfter⟩
        | none => ⟨r.found, e :: r.fsAfter⟩
      else ⟨r.found, e :: r.fsAfter⟩

-- Characterization used in proofs: an entry survives the scan unless it is
-- a tm-*.sock entry whose parsed pid is dead.
def keepEntry (alive : Nat → Bool) (e : List Char) : Bool :=
  if matchesSock e then
    match parsePid e with
    | some pid => alive pid
    | none => true
  else true

-- discoverAndConnect(): create a Session for each found pid not already
-- tracked.  Nothing is ever removed from the session map (the loop over
-- sessions whose sockets are gone has an empty body in the source).
def discoverAndConnect (alive : Nat → Bool) (tmpdir : List (List Char))
    (sessions : List Nat) : List Nat × List (List Char) :=
  let r := scanForWrappers alive tmpdir
  (r.found.foldl (fun ss pe => if pe.1 ∈ ss then ss else ss ++ [pe.1]) sessions,
   r.fsAfter)

-- GET /api/sessions: one list item per entry of the session map (the
-- handler then sorts by startedAt, which permutes but never drops items).
def apiSessions (sessions : List Nat) : List Nat := sessions

-- ══ Wrapper startup (tm-wrapper.js: startSocketServer) ══

inductive FsEffect
  | unlinkStale (p : String)
  | listen (p : String)
  | writeFile (p : String) (mode : Nat)
deriving DecidableEq

def FsEffect.path : FsEffect → String
  | .unlinkStale p => p
  | .listen p => p
  | .writeFile p _ => p

def FsEffect.isWrite : FsEffect → Bool
  | .writeFile _ _ => true
  | _ => false

-- path.join(os.tmpdir(), `tm-<pid>.sock`)
def socketPathOf (tmpdir : String) (pid : Nat) : String :=
  tmpdir ++ "/tm-" ++ toString pid ++ ".sock"

-- The sibling token path the README documents (tm-<pid>.token, mode 0600).
def tokenPathOf (tmpdir : String) (pid : Nat) : String :=
  tmpdir ++ "/tm-" ++ toString pid ++ ".token"

-- startSocketServer(): compute the socket path, unlink a stale socket if
-- present, createServer, listen.  These are the only filesystem effects in
-- tm-wrapper.js startup: no token file is created and no chmod happens.
def startSocketServerEffects (tmpdir : String) (pid : Nat) : List FsEffect :=
  [.unlinkStale (socketPathOf tmpdir pid), .listen (socketPathOf tmpdir pid)]

-- ══ Wrapper connection manager (mirror-server.js: connectToWrapper handlers) ══

def SOCKET_RECONNECT_MS : Nat := 3000

def SOCKET_RECONNECT_MAX : Nat := 10

structure WrapperConn where
  reconnects : Nat
  connected : Bool
deriving DecidableEq

inductive ConnEvent
  | connectOk
  | closeEv (sockExists : Bool)
  | errorEv (retryableCode : Bool) (sockExists : Bool)
deriving DecidableEq

-- One handler invocation.  connect: reset the counter, mark live.
-- close: mark not-live; if the counter is below the maximum AND the socket
-- file still exists (fs.accessSync succeeds), increment the counter and
-- schedule a reconnect after the fixed delay.  error: the same retry logic,
-- but only for ENOENT / ECONNREFUSED (retryableCode); other error codes do
-- nothing in the handler.  The second component is the scheduled delay.
def connStep : WrapperConn → ConnEvent → WrapperConn × Option Nat
  | _, .connectOk => (⟨0, true⟩, none)
  | s, .closeEv ex =>
      if s.reconnects < SOCKET_RECONNECT_MAX then
        if ex then (⟨s.reconnects + 1, false⟩, some SOCKET_RECONNECT_MS)
        else (⟨s.reconnects, false⟩, none)
      else (⟨s.reconnects, false⟩, none)
  | s, .errorEv retryable ex =>
      if retryable then
        if s.reconnects < SOCKET_RECONNECT_MAX then
          if ex then (⟨s.reconnects + 1, false⟩, some SOCKET_RECONNECT_MS)
          else (⟨s.reconnects, false⟩, none)
        else (⟨s.reconnects, false⟩, none)
      else (s, none)

-- Process a sequence of events, collecting every scheduled reconnect delay.
def runConn : WrapperConn → List ConnEvent → WrapperConn × List Nat
  | s, [] => (s, [])
  | s, e :: es =>
      let r := connStep s e
      let rest := runConn r.1 es
      (rest.1, r.2.toList ++ rest.2)

-- ══ Wrapper frame stream (tm-wrapper.js: socket server + onData) ══

structure SessionMeta where
  cwd : String
  cols : Nat
  rows : Nat
  pid : Nat
  cmd : String
  startedAt : String
deriving DecidableEq

-- Frames carry their payload bytes (the wire encodes output/scrollback
-- payloads in base64, a bijection on byte strings).
inductive Frame
  | hello (meta : SessionMeta)
  | scrollback (data : List Nat)
  | output (data : List Nat)
  | resizeFrame (cols rows : Nat)
  | exitFrame (code : Nat)
deriving DecidableEq

def Frame.isScrollback : Frame → Bool
  | .scrollback _ => true
  | _ => false

inductive WrapperEvent
  | ptyData (d : List Nat)
  | clientConnect
  | termResize (cols rows : Nat)
  | ptyExit (code : Nat)
deriving DecidableEq

structure WrapperState where
  meta : SessionMeta
  rb : RingBuffer
  clients : List (List Frame)
deriving DecidableEq

-- The connection handler: sendToClient(hello), then, only when the
-- snapshot is non-empty (if (scrollback.length > 0)), sendToClient(scrollback).
def connectFrames (meta : SessionMeta) (rb : RingBuffer) : List Frame :=
  Frame.hello meta ::
    (if rb.getContents.length > 0 then [Frame.scrollback rb.getContents] else [])

-- Single-threaded event semantics of tm-wrapper.js: each handler runs to
-- completion.  ptyData: append to the ring buffer, then broadcast an output
-- frame to every connected client.  clientConnect: run the connection
-- handler (hello + optional scrollback).  termResize: resize and broadcast.
-- ptyExit: broadcast the exit frame.
def wstep (s : WrapperState) : WrapperEvent → WrapperState
  | .ptyData d =>
      { s with rb := s.rb.write d,
               clients := s.clients.map (fun log => log ++ [Frame.output d]) }
  | .clientConnect =>
      { s with clients := s.clients ++ [connectFrames s.meta s.rb] }
  | .termResize c r =>
      { s with meta := { s.meta with cols := c, rows := r },
               clients := s.clients.map (fun log => log ++ [Frame.resizeFrame c r]) }
  | .ptyExit code =>
      { s with clients := s.clients.map (fun log => log ++ [Frame.exitFrame code]) }

def wrun (s : WrapperState) : List WrapperEvent → WrapperState
  | [] => s
  | e :: es => wrun (wstep s e) es

-- The broadcast frames a connected client receives from a list of
-- subsequent events.
def liveFrames : List WrapperEvent → List Frame
  | [] => []
  | .ptyData d :: es => Frame.output d :: liveFrames es
  | .clientConnect :: es => liveFrames es
  | .termResize c r :: es => Frame.resizeFrame c r :: liveFrames es
  | .ptyExit c :: es => Frame.exitFrame c :: liveFrames es

-- ══ Port binding (mirror-server.js: listenOnAvailablePort / start) ══

inductive PortStatus
  | free
  | inUse
  | otherError
deriving DecidableEq

inductive ScanError
  | exhausted
  | listenError
deriving DecidableEq

def START_PORT : Nat := 3456

def MAX_PORT_SCAN : Nat := 100

-- for (i = 0; i < maxAttempts; i++) try startPort + i; EADDRINUSE continues
-- the scan, any other listen error is rethrown, exhaustion throws
-- 'No available port found'.
def listenOnAvailablePort (env : Nat → PortStatus) (startPort : Nat) :
    Nat → Except ScanError Nat
  | 0 => .error .exhausted
  | n + 1 =>
      match env startPort with
      | .free => .ok startPort
      | .inUse => listenOnAvailablePort env (startPort + 1) n
      | .otherError => .error .listenError

-- The ports the scan actually attempts to bind, in order.
def portsTried (env : Nat → PortStatus) (startPort : Nat) : Nat → List Nat
  | 0 => []
  | n + 1 =>
      startPort ::
        (match env startPort with
         | .inUse => portsTried env (startPort + 1) n
         | _ => [])

inductive StartResult
  | running (port : Nat)
  | exited (code : Nat)
deriving DecidableEq

-- start() wires listenOnAvailablePort(httpServer, START_PORT, MAX_PORT_SCAN)
-- and the top-level start().catch(err => { console.error(err); process.exit(1) }).
def startRelay (env : Nat → PortStatus) : StartResult :=
  match listenOnAvailablePort env START_PORT MAX_PORT_SCAN with
  | .ok p => .running p
  | .error _ => .exited 1

-- ══ /api/file handler (mirror-server.js) ══

def MAX_FILE_READ_BYTES : Nat := 2 * 1024 * 1024

-- Paths are char lists.  splitSlash mirrors String.split('/').
def splitSlash : List Char → List (List Char)
  | [] => [[]]
  | c :: cs =>
      let r := splitSlash cs
      if c = '/' then [] :: r
      else
        match r with
        | [] => [[c]]
        | h :: t => (c :: h) :: t

-- POSIX path normalization over components: drop empty and ".", ".." pops.
def normalizeComps (comps : List (List Char)) : List (List Char) :=
  comps.foldl
    (fun acc c =>
      if c = [] ∨ c = ['.'] then acc
      else if c = ['.', '.'] then acc.dropLast
      else acc ++ [c])
    []

def renderAbs (comps : List (List Char)) : List Char :=
  '/' :: (comps.intersperse ['/']).flatten

-- path.resolve(cwd, p) for an absolute cwd: an absolute p ignores cwd
-- entirely; otherwise p is resolved against cwd.  Either way the result is
-- normalized.
def resolvePath (cwd p : List Char) : List Char :=
  if p.head? = some '/' then renderAbs (normalizeComps (splitSlash p))
  else renderAbs (normalizeComps (splitSlash (cwd ++ '/' :: p)))

-- if (filePath.startsWith('~/')) filePath = path.join(os.homedir(), filePath.slice(2))
def expandTilde (home p : List Char) : List Char :=
  match p with
  | '~' :: '/' :: rest => home ++ '/' :: rest
  | _ => p

structure FileStat where
  isFile : Bool
  size : Nat
deriving DecidableEq

inductive FileResponse
  | missingParam
  | notAFile
  | tooLarge
  | notFound
  | ok (path : List Char) (content : String)
deriving DecidableEq

-- GET /api/file: take the path parameter, expand a leading ~/, resolve
-- against the session cwd, stat, reject non-files and files above the 2MB
-- cap, otherwise return the content.  statFn returning none models
-- fs.statSync throwing (caught as 404).  There is no containment check
-- against cwd anywhere on this route.
def fileHandler (statFn : List Char → Option FileStat) (readFn : List Char → String)
    (homedir cwd pathParam : List Char) : FileResponse :=
  if pathParam = [] then .missingParam
  else
    let resolved := resolvePath cwd (expandTilde homedir pathParam)
    match statFn resolved with
    | none => .notFound
    | some st =>
        if !st.isFile then .notAFile
        else if st.size > MAX_FILE_READ_BYTES then .tooLarge
        else .ok resolved (readFn resolved)

-- ══ Theorems ══

-- ── C1: ring buffer snapshot ──

/-- C1: the claim "snapshot() returns exactly the last min(total_bytes, C)
bytes" fails on the code at the exact-fill boundary: for capacity 2, a
single write of [10, 20] leaves totalWritten = capacity and writePos = 0,
so getContents takes its `totalWritten <= capacity` branch and returns the
empty list, while the last min(2, 2) bytes of the write sequence are
[10, 20]. -/
theorem ringBuffer_exact_fill_snapshot_empty :
    ((RingBuffer.init 2).write [10, 20]).getContents = [] ∧
    lastN [10, 20] (min 2 2) = [10, 20] ∧
    ([] : List Nat) ≠ [10, 20] := by decide

-- ── C2: mailbox FIFO delivery ──

/-- C2: submitting m1, m2, m3 in order and then polling three times yields
m1, m2, m3 in that order; the queue is then empty and a fourth poll
delivers nothing, so each entry was delivered exactly once and in arrival
order. -/
theorem mailbox_fifo_delivery (m1 m2 m3 : MsgEntry) :
    (let s0 : Mailbox := ⟨[], []⟩
     let s1 := (s0.submit m1).1
     let s2 := (s1.submit m2).1
     let s3 := (s2.submit m3).1
     let p1 := s3.poll 0
     let p2 := p1.2.poll 1
     let p3 := p2.2.poll 2
     p1.1 = some m1 ∧ p2.1 = some m2 ∧ p3.1 = some m3 ∧
     p3.2.queue = [] ∧ (p3.2.poll 3).1 = none) :=
  ⟨rfl, rfl, rfl, rfl, rfl⟩

-- ── C7: mailbox capacity bound ──

theorem resolveNextPoll_waiters_nil (q : List MsgEntry) :
    resolveNextPoll [] q = ([], q, []) := rfl

theorem submit_nil_waiters (q : List MsgEntry) (e : MsgEntry) :
    Mailbox.submit ⟨q, []⟩ e =
      (⟨(if q.length ≥ MAX_MESSAGE_QUEUE then q.tail else q) ++ [e], []⟩, []) := rfl

theorem submitAll_cons (e : MsgEntry) (es : List MsgEntry) (mb : Mailbox) :
    submitAll (e :: es) mb = submitAll es (mb.submit e).1 := rfl

theorem resolveNextPoll_queue_le (ws : List Nat) (q : List MsgEntry) :
    (resolveNextPoll ws q).2.1.length ≤ q.length := by
  induction ws generalizing q with
  | nil => cases q <;> simp [resolveNextPoll]
  | cons w ws ih =>
      cases q with
      | nil => simp [resolveNextPoll]
      | cons m ms =>
          simpa [resolveNextPoll] using Nat.le_succ_of_le (ih ms)

theorem submitAll_overflow_tail :
    ∀ (es q : List MsgEntry), 1 ≤ es.length →
      q.length + es.length = MAX_MESSAGE_QUEUE + 1 → 1 ≤ q.length →
      (submitAll es ⟨q, []⟩).queue = q.tail ++ es := by
  intro es
  induction es with
  | nil => intro q hes _ _; simp at hes
  | cons e es' ih =>
      intro q _ hlen hq
      rw [submitAll_cons, submit_nil_waiters]
      simp only [List.length_cons, MAX_MESSAGE_QUEUE] at hlen
      cases es' with
      | nil =>
          simp only [List.length_nil] at hlen
          have hq100 : q.length = MAX_MESSAGE_QUEUE := by
            simp only [MAX_MESSAGE_QUEUE]
            omega
          rw [if_pos (le_of_eq hq100.symm)]
          simp [submitAll]
      | cons e2 es2 =>
          simp only [List.length_cons] at hlen
          rw [if_neg (by simp only [MAX_MESSAGE_QUEUE]; omega)]
          have hne : q ≠ [] := by
            intro h; rw [h] at hq; simp at hq
          have := ih (q ++ [e]) (by simp)
            (by simp only [List.length_append, List.length_cons, List.length_nil,
                  MAX_MESSAGE_QUEUE]
                omega)
            (by simp)
          rw [this, List.tail_append_singleton_of_ne_nil hne]
          simp

/-- C7: capacity-bounded FIFO.  Submitting MAX_MESSAGE_QUEUE + 1 entries
into an empty mailbox retains exactly the last MAX_MESSAGE_QUEUE of them:
the oldest is evicted and the queue length is exactly the capacity.
Moreover a single submit against any mailbox whose queue is within
capacity leaves the queue within capacity. -/
theorem mailbox_capacity_eviction (m : MsgEntry) (ms : List MsgEntry)
    (mb : Mailbox) (e : MsgEntry)
    (hms : ms.length = MAX_MESSAGE_QUEUE)
    (hmb : mb.queue.length ≤ MAX_MESSAGE_QUEUE) :
    (submitAll (m :: ms) ⟨[], []⟩).queue = ms ∧
    (submitAll (m :: ms) ⟨[], []⟩).queue.length = MAX_MESSAGE_QUEUE ∧
    ((mb.submit e).1).queue.length ≤ MAX_MESSAGE_QUEUE := by
  have hmain : (submitAll (m :: ms) ⟨[], []⟩).queue = ms := by
    rw [submitAll_cons, submit_nil_waiters]
    rw [if_neg (by simp [MAX_MESSAGE_QUEUE])]
    simp only [List.nil_append]
    rw [submitAll_overflow_tail ms [m]
      (by rw [hms]; decide)
      (by simp only [List.length_singleton, hms]; omega)
      (by simp)]
    simp
  refine ⟨hmain, by rw [hmain, hms], ?_⟩
  show (Mailbox.submit mb e).1.queue.length ≤ MAX_MESSAGE_QUEUE
  unfold Mailbox.submit
  simp only
  refine le_trans (resolveNextPoll_queue_le _ _) ?_
  by_cases h : mb.queue.length ≥ MAX_MESSAGE_QUEUE
  · rw [if_pos h]
    simp only [List.length_append, List.length_tail, List.length_cons, List.length_nil,
      MAX_MESSAGE_QUEUE] at h hmb ⊢
    omega
  · rw [if_neg h]
    simp only [List.length_append, List.length_cons, List.length_nil,
      MAX_MESSAGE_QUEUE] at h hmb ⊢
    omega

/-- C7 witness: 101 concrete submits against the empty mailbox retain the
last 100 entries exactly, and one further submit keeps the queue within
capacity. -/
theorem mailbox_capacity_eviction_witness :
    (submitAll (MsgEntry.mk "m1" 0 :: List.replicate 100 (MsgEntry.mk "x" 1)) ⟨[], []⟩).queue
        = List.replicate 100 (MsgEntry.mk "x" 1) ∧
    (submitAll (MsgEntry.mk "m1" 0 :: List.replicate 100 (MsgEntry.mk "x" 1)) ⟨[], []⟩).queue.length
        = MAX_MESSAGE_QUEUE ∧
    ((Mailbox.submit ⟨[], []⟩ (MsgEntry.mk "e" 2)).1).queue.length ≤ MAX_MESSAGE_QUEUE :=
  mailbox_capacity_eviction (MsgEntry.mk "m1" 0) (List.replicate 100 (MsgEntry.mk "x" 1))
    ⟨[], []⟩ (MsgEntry.mk "e" 2) (by simp [MAX_MESSAGE_QUEUE]) (by simp)

-- ── C3: auth gate uniform rejection ──

/-- C3: the claim fails on the code: a candidate of 48 UTF-16 code units
whose UTF-8 encoding is 49 bytes (47 times 'a' followed by U+00E9,
reachable as ?token=aaa...%C3%A9) differs from the 48-byte master token in
at least one byte, passes the string-length guard of isValidToken, and
makes crypto.timingSafeEqual throw on unequal buffer byte lengths — so
both the /api/ gate and the WebSocket upgrade gate crash (unhandled
rejection / uncaught exception) instead of answering with the uniform
unauthorized result. -/
theorem auth_length_guard_crash :
    badCandidateExample ≠ masterTokenExample ∧
    jsLength badCandidateExample = jsLength masterTokenExample ∧
    utf8Length badCandidateExample ≠ utf8Length masterTokenExample ∧
    apiGate masterTokenExample badCandidateExample = .crashed ∧
    upgradeGate masterTokenExample badCandidateExample = .crashed ∧
    HttpResult.crashed ≠ HttpResult.unauthorized401 := by decide

-- ── C5: wrapper startup artifacts ──

/-- C5: the first half of the claim holds (the IPC endpoint is created at
the pid-derived path tmp-dir/tm-pid.sock), but the second half fails on
the code: startSocketServer performs no filesystem write at all, so the
documented sibling token artifact tm-pid.token (mode 0600) is never
created. -/
theorem wrapper_startup_no_token_file :
    socketPathOf "/tmp" 42 = "/tmp/tm-42.sock" ∧
    tokenPathOf "/tmp" 42 = "/tmp/tm-42.token" ∧
    startSocketServerEffects "/tmp" 42 =
      [.unlinkStale "/tmp/tm-42.sock", .listen "/tmp/tm-42.sock"] ∧
    (startSocketServerEffects "/tmp" 42).all (fun eff => ! eff.isWrite) = true ∧
    (startSocketServerEffects "/tmp" 42).all
      (fun eff => eff.path != "/tmp/tm-42.token") = true := by decide

-- ── C6: reconnect policy ──

theorem runConn_exhausted (evs : List ConnEvent) :
    ∀ s : WrapperConn, SOCKET_RECONNECT_MAX ≤ s.reconnects →
      ConnEvent.connectOk ∉ evs → (runConn s evs).2 = [] := by
  induction evs with
  | nil => intro s _ _; rfl
  | cons e es ih =>
      intro s hmax hno
      have hne : e ≠ ConnEvent.connectOk := fun h => hno (by simp [h])
      have hnotes : ConnEvent.connectOk ∉ es := fun h => hno (List.mem_cons_of_mem _ h)
      have hnl : ¬ s.reconnects < SOCKET_RECONNECT_MAX := Nat.not_lt.mpr hmax
      cases e with
      | connectOk => exact absurd rfl hne
      | closeEv ex =>
          have h1 : connStep s (.closeEv ex) = (⟨s.reconnects, false⟩, none) := by
            simp [connStep, hnl]
          simp only [runConn, h1]
          simpa using ih ⟨s.reconnects, false⟩ hmax hnotes
      | errorEv r ex =>
          cases r with
          | true =>
              have h1 : connStep s (.errorEv true ex) = (⟨s.reconnects, false⟩, none) := by
                simp [connStep, hnl]
              simp only [runConn, h1]
              simpa using ih ⟨s.reconnects, false⟩ hmax hnotes
          | false =>
              have h1 : connStep s (.errorEv false ex) = (s, none) := by
                simp [connStep]
              simp only [runConn, h1]
              simpa using ih s hmax hnotes

/-- C6: a disconnect event (close, or error with a retryable code)
schedules a reconnect exactly when the socket file still exists on disk
and the retry counter is below SOCKET_RECONNECT_MAX; every scheduled delay
is the fixed SOCKET_RECONNECT_MS; and once the counter has reached the
maximum, no sequence of further events without a successful connect ever
schedules another attempt. -/
theorem reconnect_policy :
    (∀ (s : WrapperConn) (ex : Bool),
        ((connStep s (.closeEv ex)).2).isSome = true ↔
          ex = true ∧ s.reconnects < SOCKET_RECONNECT_MAX) ∧
    (∀ (s : WrapperConn) (r ex : Bool),
        ((connStep s (.errorEv r ex)).2).isSome = true ↔
          r = true ∧ ex = true ∧ s.reconnects < SOCKET_RECONNECT_MAX) ∧
    (∀ (s : WrapperConn) (e : ConnEvent) (d : Nat),
        (connStep s e).2 = some d → d = SOCKET_RECONNECT_MS) ∧
    (∀ (s : WrapperConn) (evs : List ConnEvent),
        SOCKET_RECONNECT_MAX ≤ s.reconnects →
        ConnEvent.connectOk ∉ evs →
        (runConn s evs).2 = []) := by
  refine ⟨?_, ?_, ?_, ?_⟩
  · intro s ex
    by_cases hm : s.reconnects < SOCKET_RECONNECT_MAX <;> cases ex <;>
      simp [connStep, hm]
  · intro s r ex
    cases r <;> by_cases hm : s.reconnects < SOCKET_RECONNECT_MAX <;> cases ex <;>
      simp [connStep, hm]
  · intro s e d h
    cases e with
    | connectOk => simp [connStep] at h
    | closeEv ex =>
        by_cases hm : s.reconnects < SOCKET_RECONNECT_MAX <;> cases ex <;>
          simp [connStep, hm] at h <;> omega
    | errorEv r ex =>
        cases r <;> by_cases hm : s.reconnects < SOCKET_RECONNECT_MAX <;> cases ex <;>
          simp [connStep, hm] at h <;> omega
  · intro s evs hmax hno
    exact runConn_exhausted evs s hmax hno

/-- C6 witness: a first disconnect with the socket file present schedules
a retry, and from a session whose counter is at the maximum a concrete
disconnect sequence schedules nothing. -/
theorem reconnect_policy_witness :
    ((connStep ⟨0, true⟩ (.closeEv true)).2).isSome = true ∧
    (runConn ⟨SOCKET_RECONNECT_MAX, false⟩
        [.closeEv true, .errorEv true true, .closeEv false]).2 = [] :=
  ⟨(reconnect_policy.1 ⟨0, true⟩ true).mpr (by decide),
   reconnect_policy.2.2.2 ⟨SOCKET_RECONNECT_MAX, false⟩
     [.closeEv true, .errorEv true true, .closeEv false] (le_refl _) (by decide)⟩

-- ── C4: discovery and stale sessions ──

theorem scan_fsAfter_eq_filter (alive : Nat → Bool) (fs : List (List Char)) :
    (scanForWrappers alive fs).fsAfter = fs.filter (keepEntry alive) := by
  induction fs with
  | nil => rfl
  | cons x rest ih =>
      by_cases hm : matchesSock x
      · cases hpx : parsePid x with
        | some pid =>
            by_cases ha : alive pid <;>
              simp [scanForWrappers, List.filter_cons, keepEntry, hm, hpx, ha, ih]
        | none => simp [scanForWrappers, List.filter_cons, keepEntry, hm, hpx, ih]
      · simp [scanForWrappers, List.filter_cons, keepEntry, hm, ih]

theorem scan_found_alive (alive : Nat → Bool) (fs : List (List Char)) :
    ∀ pe ∈ (scanForWrappers alive fs).found, alive pe.1 = true := by
  induction fs with
  | nil => intro pe h; simp [scanForWrappers] at h
  | cons x rest ih =>
      intro pe h
      by_cases hm : matchesSock x
      · cases hpx : parsePid x with
        | some pid =>
            by_cases ha : alive pid
            · simp only [scanForWrappers, hm, hpx, ha, if_true] at h
              rcases List.mem_cons.mp h with h1 | h1
              · rw [h1]; exact ha
              · exact ih pe h1
            · simp only [scanForWrappers, hm, hpx, ha, if_true, if_false,
                Bool.false_eq_true] at h
              exact ih pe h
        | none =>
            simp only [scanForWrappers, hm, hpx, if_true] at h
            exact ih pe h
      · simp only [scanForWrappers, hm, Bool.false_eq_true, if_false] at h
        exact ih pe h

theorem mem_foldl_addSessions (found : List (Nat × List Char)) :
    ∀ (ss : List Nat) (x : Nat),
      x ∈ found.foldl (fun ss pe => if pe.1 ∈ ss then ss else ss ++ [pe.1]) ss →
      x ∈ ss ∨ ∃ pe ∈ found, pe.1 = x := by
  induction found with
  | nil => intro ss x h; exact Or.inl h
  | cons pe rest ih =>
      intro ss x h
      simp only [List.foldl_cons] at h
      rcases ih _ x h with h1 | ⟨pe', hmem, heq⟩
      · by_cases hin : pe.1 ∈ ss
        · rw [if_pos hin] at h1
          exact Or.inl h1
        · rw [if_neg hin] at h1
          rcases List.mem_append.mp h1 with h2 | h2
          · exact Or.inl h2
          · exact Or.inr ⟨pe, List.mem_cons_self _ _, (List.mem_singleton.mp h2).symm⟩
      · exact Or.inr ⟨pe', List.mem_cons_of_mem _ hmem, heq⟩

/-- C4 (amended): the next discovery scan does remove a dead pid's
endpoint artifact, and a dead pid that is not already tracked is never
added to the session map; but an already-tracked Session record is never
destroyed — discovery's removal loop has an empty body — so it continues
to appear in the /api/sessions list (see the counterexample). -/
theorem discovery_stale_artifact_cleanup :
    (∀ (alive : Nat → Bool) (fs : List (List Char)) (e : List Char) (p : Nat),
        matchesSock e = true → parsePid e = some p → alive p = false →
        e ∉ (scanForWrappers alive fs).fsAfter) ∧
    (∀ (alive : Nat → Bool) (fs : List (List Char)) (sessions : List Nat) (p : Nat),
        p ∉ sessions → alive p = false →
        p ∉ (discoverAndConnect alive fs sessions).1) := by
  constructor
  · intro alive fs e p hm hp hd hcontra
    rw [scan_fsAfter_eq_filter] at hcontra
    have := (List.mem_filter.mp hcontra).2
    simp only [keepEntry, hm, if_true, hp, hd] at this
    exact Bool.false_ne_true this
  · intro alive fs sessions p hs hd hcontra
    rcases mem_foldl_addSessions _ _ _ hcontra with h1 | ⟨pe, hmem, heq⟩
    · exact hs h1
    · have := scan_found_alive alive fs pe hmem
      rw [heq, hd] at this
      exact Bool.false_ne_true this

/-- C4 witness: with only tm-7.sock present and pid 7 dead, the scan
removes the artifact and pid 7 is not added to an empty session map. -/
theorem discovery_stale_artifact_cleanup_witness :
    "tm-7.sock".toList ∉
      (scanForWrappers (fun _ => false) ["tm-7.sock".toList]).fsAfter ∧
    7 ∉ (discoverAndConnect (fun _ => false) ["tm-7.sock".toList] []).1 :=
  ⟨discovery_stale_artifact_cleanup.1 (fun _ => false) ["tm-7.sock".toList]
      "tm-7.sock".toList 7 (by decide) (by decide) rfl,
   discovery_stale_artifact_cleanup.2 (fun _ => false) ["tm-7.sock".toList] [] 7
      (by decide) rfl⟩

/-- C4 counterexample: the claim's "does not appear in the /api/sessions
list" fails for a tracked session.  With tm-42.sock present and pid 42
alive, discovery tracks session 42; at the next scan pid 42 is dead: the
stale socket is unlinked, yet pid 42 is never removed from the session map
and still appears in the /api/sessions list. -/
theorem dead_session_remains_listed :
    (discoverAndConnect (fun _ => true) ["tm-42.sock".toList] []).1 = [42] ∧
    (discoverAndConnect (fun _ => true) ["tm-42.sock".toList] []).2 =
      ["tm-42.sock".toList] ∧
    (discoverAndConnect (fun _ => false) ["tm-42.sock".toList] [42]).2 = [] ∧
    (discoverAndConnect (fun _ => false) ["tm-42.sock".toList] [42]).1 = [42] ∧
    42 ∈ apiSessions (discoverAndConnect (fun _ => false) ["tm-42.sock".toList] [42]).1 := by
  decide

-- ── C9: port scan and fatal exhaustion ──

theorem listen_ok_characterization (env : Nat → PortStatus) :
    ∀ (n s p : Nat), listenOnAvailablePort env s n = .ok p →
      ∃ i, i < n ∧ p = s + i ∧ env p = .free ∧
        ∀ j, j < i → env (s + j) = .inUse := by
  intro n
  induction n with
  | zero => intro s p h; simp [listenOnAvailablePort] at h
  | succ n ih =>
      intro s p h
      simp only [listenOnAvailablePort] at h
      cases hs : env s with
      | free =>
          rw [hs] at h
          simp only [Except.ok.injEq] at h
          exact ⟨0, Nat.succ_pos n, by omega, h ▸ hs,
            fun j hj => absurd hj (by omega)⟩
      | inUse =>
          rw [hs] at h
          obtain ⟨i, hi, hp, hf, hall⟩ := ih (s + 1) p h
          refine ⟨i + 1, by omega, by omega, hf, fun j hj => ?_⟩
          cases j with
          | zero => simpa using hs
          | succ j =>
              rw [show s + (j + 1) = s + 1 + j by omega]
              exact hall j (by omega)
      | otherError => rw [hs] at h; simp at h

theorem listen_exhausted (env : Nat → PortStatus) :
    ∀ (n s : Nat), (∀ i, i < n → env (s + i) = .inUse) →
      listenOnAvailablePort env s n = .error .exhausted := by
  intro n
  induction n with
  | zero => intro s _; rfl
  | succ n ih =>
      intro s hall
      have h0 : env s = .inUse := by simpa using hall 0 (Nat.succ_pos n)
      simp only [listenOnAvailablePort, h0]
      exact ih (s + 1) (fun i hi => by
        rw [show s + 1 + i = s + (i + 1) by omega]
        exact hall (i + 1) (by omega))

/-- C9: the port scan walks sequentially upward: a successful bind is at
START_PORT + i for some i below the MAX_PORT_SCAN bound, that port is
free, and every earlier port in the range was in use; when every port in
the bounded range is in use the relay process exits with the non-zero
status 1; and a listening error other than address-in-use is not retried:
the scan aborts at once with the rethrown error, having tried only the
failing port. -/
theorem port_scan_policy :
    (∀ (env : Nat → PortStatus) (p : Nat),
        listenOnAvailablePort env START_PORT MAX_PORT_SCAN = .ok p →
        ∃ i, i < MAX_PORT_SCAN ∧ p = START_PORT + i ∧ env p = .free ∧
          ∀ j, j < i → env (START_PORT + j) = .inUse) ∧
    (∀ env : Nat → PortStatus,
        (∀ i, i < MAX_PORT_SCAN → env (START_PORT + i) = .inUse) →
        startRelay env = .exited 1 ∧ (1 : Nat) ≠ 0) ∧
    (∀ (env : Nat → PortStatus) (s n : Nat), env s = .otherError →
        listenOnAvailablePort env s (n + 1) = .error .listenError ∧
        portsTried env s (n + 1) = [s]) := by
  refine ⟨?_, ?_, ?_⟩
  · intro env p h
    exact listen_ok_characterization env MAX_PORT_SCAN START_PORT p h
  · intro env hall
    refine ⟨?_, by omega⟩
    unfold startRelay
    rw [listen_exhausted env MAX_PORT_SCAN START_PORT hall]
  · intro env s n h
    constructor
    · simp only [listenOnAvailablePort, h]
    · simp only [portsTried, h]

/-- C9 witness: with ports 3456..3459 in use and 3460 free the scan binds
3460 (first free, all earlier in use); with every port in use the relay
exits 1; a non-address-in-use error at the first port aborts after trying
only that port. -/
theorem port_scan_policy_witness :
    (∃ i, i < MAX_PORT_SCAN ∧
        3460 = START_PORT + i ∧
        (fun p => if p < 3460 then PortStatus.inUse else .free) 3460 = .free ∧
        ∀ j, j < i →
          (fun p => if p < 3460 then PortStatus.inUse else .free) (START_PORT + j) = .inUse) ∧
    startRelay (fun _ => PortStatus.inUse) = .exited 1 ∧
    listenOnAvailablePort (fun _ => PortStatus.otherError) 3456 100 = .error .listenError ∧
    portsTried (fun _ => PortStatus.otherError) 3456 100 = [3456] :=
  ⟨port_scan_policy.1 (fun p => if p < 3460 then PortStatus.inUse else .free) 3460 (by rfl),
   (port_scan_policy.2.1 (fun _ => PortStatus.inUse) (fun i _ => rfl)).1,
   (port_scan_policy.2.2 (fun _ => PortStatus.otherError) 3456 99 rfl).1,
   (port_scan_policy.2.2 (fun _ => PortStatus.otherError) 3456 99 rfl).2⟩

-- ── C10: /api/file is not confined to the session cwd ──

/-- C10: path resolution on the /api/file route does not confine reads to
the session's working directory: for an absolute path parameter (and for a
tilde-slash parameter under an absolute home directory) the handler's result
is identical for every session cwd, and whenever the resolved path names a
regular file of size at most MAX_FILE_READ_BYTES the handler returns that
file's content — no hypothesis relates the resolved path to cwd. -/
theorem file_read_escapes_cwd :
    (∀ (statFn : List Char → Option FileStat) (readFn : List Char → String)
        (home cwd cwd' p : List Char),
        p.head? = some '/' →
        fileHandler statFn readFn home cwd p = fileHandler statFn readFn home cwd' p) ∧
    (∀ (statFn : List Char → Option FileStat) (readFn : List Char → String)
        (home cwd cwd' rest : List Char),
        home.head? = some '/' →
        fileHandler statFn readFn home cwd ('~' :: '/' :: rest) =
          fileHandler statFn readFn home cwd' ('~' :: '/' :: rest)) ∧
    (∀ (statFn : List Char → Option FileStat) (readFn : List Char → String)
        (home cwd p : List Char) (sz : Nat),
        p ≠ [] →
        statFn (resolvePath cwd (expandTilde home p)) = some ⟨true, sz⟩ →
        sz ≤ MAX_FILE_READ_BYTES →
        fileHandler statFn readFn home cwd p =
          .ok (resolvePath cwd (expandTilde home p))
            (readFn (resolvePath cwd (expandTilde home p)))) := by
  refine ⟨?_, ?_, ?_⟩
  · intro statFn readFn home cwd cwd' p hp
    cases p with
    | nil => simp at hp
    | cons c ps =>
        simp only [List.head?_cons, Option.some.injEq] at hp
        subst hp
        rfl
  · intro statFn readFn home cwd cwd' rest hh
    cases home with
    | nil => simp at hh
    | cons c hs =>
        simp only [List.head?_cons, Option.some.injEq] at hh
        subst hh
        rfl
  · intro statFn readFn home cwd p sz hne hstat hsize
    unfold fileHandler
    rw [if_neg hne]
    simp only [hstat]
    have hgt : ¬ sz > MAX_FILE_READ_BYTES := by omega
    simp [hgt]

/-- C10 witness: reading the absolute path /etc/passwd succeeds identically
under the working directories /work and /other, and returns the file
content although the file is outside both. -/
theorem file_read_escapes_cwd_witness :
    fileHandler
        (fun s => if s = "/etc/passwd".toList then some ⟨true, 10⟩ else none)
        (fun _ => "rootdata") "/home/u".toList "/work".toList "/etc/passwd".toList =
      fileHandler
        (fun s => if s = "/etc/passwd".toList then some ⟨true, 10⟩ else none)
        (fun _ => "rootdata") "/home/u".toList "/other".toList "/etc/passwd".toList ∧
    fileHandler
        (fun s => if s = "/etc/passwd".toList then some ⟨true, 10⟩ else none)
        (fun _ => "rootdata") "/home/u".toList "/work".toList "/etc/passwd".toList =
      .ok "/etc/passwd".toList "rootdata" :=
  ⟨file_read_escapes_cwd.1 _ _ _ _ _ _ (by decide),
   (file_read_escapes_cwd.2.2
        (fun s => if s = "/etc/passwd".toList then some ⟨true, 10⟩ else none)
        (fun _ => "rootdata") "/home/u".toList "/work".toList "/etc/passwd".toList 10
        (by decide) (by decide) (by decide)).trans (by decide)⟩

-- ── C8: hello, then scrollback, then live frames ──

theorem wrun_log_growth (es : List WrapperEvent) :
    ∀ (s : WrapperState) (i : Nat), i < s.clients.length →
      (wrun s es).clients[i]? = (s.clients[i]?).map (fun log => log ++ liveFrames es) := by
  induction es with
  | nil =>
      intro s i _
      simp only [wrun, liveFrames]
      cases s.clients[i]? <;> simp
  | cons e es ih =>
      intro s i hi
      cases e with
      | ptyData d =>
          have h1 := ih (wstep s (.ptyData d)) i (by simpa [wstep] using hi)
          simp only [wrun]
          rw [h1]
          simp only [wstep, List.getElem?_map, Option.map_map, liveFrames]
          cases s.clients[i]? <;> simp
      | clientConnect =>
          have h1 := ih (wstep s .clientConnect) i
            (by simp only [wstep, List.length_append, List.length_cons]; omega)
          simp only [wrun]
          rw [h1]
          simp only [wstep, liveFrames]
          rw [List.getElem?_append_left hi]
      | termResize c r =>
          have h1 := ih (wstep s (.termResize c r)) i (by simpa [wstep] using hi)
          simp only [wrun]
          rw [h1]
          simp only [wstep, List.getElem?_map, Option.map_map, liveFrames]
          cases s.clients[i]? <;> simp
      | ptyExit code =>
          have h1 := ih (wstep s (.ptyExit code)) i (by simpa [wstep] using hi)
          simp only [wrun]
          rw [h1]
          simp only [wstep, List.getElem?_map, Option.map_map, liveFrames]
          cases s.clients[i]? <;> simp

/-- C8 (amended): for any history `pre` of wrapper events, a client that
connects next receives, in order: first the hello frame carrying the
session metadata, then — exactly when the ring-buffer snapshot at connect
time is non-empty — a scrollback frame with that snapshot, and after these
the live broadcast frames of all subsequent events; in particular every
live output frame reaches the client only after the hello frame and the
(conditional) scrollback frame. -/
theorem client_connect_frame_order (s0 : WrapperState) (pre post : List WrapperEvent) :
    (wrun (wstep (wrun s0 pre) .clientConnect) post).clients[(wrun s0 pre).clients.length]? =
      some (Frame.hello (wrun s0 pre).meta ::
        ((if (wrun s0 pre).rb.getContents.length > 0
          then [Frame.scrollback (wrun s0 pre).rb.getContents] else []) ++
         liveFrames post)) := by
  have hlen : (wrun s0 pre).clients.length < (wstep (wrun s0 pre) .clientConnect).clients.length := by
    simp [wstep]
  rw [wrun_log_growth post _ _ hlen]
  simp only [wstep]
  rw [List.getElem?_concat_length]
  simp [connectFrames]

/-- C8 counterexample: the claim's unconditional "followed by a scrollback
frame containing the current ring-buffer snapshot" fails when the snapshot
is empty: a client connecting to a freshly started wrapper (nothing
written yet) receives only the hello frame — the connection handler skips
the scrollback frame entirely. -/
theorem connect_empty_buffer_no_scrollback :
    (wstep ⟨⟨"/w", 80, 24, 7, "bash", "t0"⟩, RingBuffer.init 4, []⟩ .clientConnect).clients =
      [[Frame.hello ⟨"/w", 80, 24, 7, "bash", "t0"⟩]] ∧
    (connectFrames ⟨"/w", 80, 24, 7, "bash", "t0"⟩ (RingBuffer.init 4)).all
      (fun f => ! f.isScrollback) = true := by decide
